import Mathlib

/-!
Verification of the multideck audio engine core against its specification.

The definitions below are a shallow embedding of the Python sources:
`src/audio/deck.py`, `src/audio/mixer.py`, `src/audio/recorder.py` and
`src/audio/stream_handler.py`.  Audio samples are modelled as exact
rationals (a stereo frame is a pair of rationals); machine floats carry
no overflow or rounding concerns relevant to the claims below, which are
about index arithmetic, list splicing and exact linear formulas.
Threading, locks and callbacks are side effects outside the claims and
are dropped; every operation is a pure function on an explicit state.
-/

namespace Multideck

/-- Python `int(x)` applied to a rational: truncation toward zero. -/
def pyInt (q : ℚ) : Int :=
  if q < 0 then -Rat.floor (-q) else Rat.floor q

/-- A stereo frame: (left, right) sample values. -/
abbrev Frame := ℚ × ℚ

/-- A silent stereo frame. -/
def silentFrame : Frame := ((0 : ℚ), (0 : ℚ))

/-- Deck states, from `config/defaults.py` (DECK_STATE_*). -/
inductive DeckState
  | empty
  | loaded
  | playing
  | paused
  | error
deriving DecidableEq

/-- State of one audio deck, from `Deck.__init__` in `src/audio/deck.py`.
`stream_handler` records whether a StreamHandler object is attached.
`audio_data` is the deck's decoded sample buffer (None until decoded). -/
structure Deck where
  deck_id : Nat
  name : String
  state : DeckState
  file_path : Option String
  is_stream : Bool
  stream_handler : Bool
  audio_data : Option (List Frame)
  sample_rate : Option ℚ
  volume : ℚ
  balance : ℚ
  mute : Bool
  loop : Bool
  position : Nat
  is_playing : Bool
  is_paused : Bool
deriving DecidableEq

/-- A freshly constructed deck (`Deck.__init__`). -/
def Deck.init (deck_id : Nat) : Deck :=
  { deck_id := deck_id
    name := "Deck " ++ toString deck_id
    state := .empty
    file_path := none
    is_stream := false
    stream_handler := false
    audio_data := none
    sample_rate := none
    volume := 1
    balance := 0
    mute := false
    loop := false
    position := 0
    is_playing := false
    is_paused := false }

/-- `Deck._set_state` (deck.py:361): records the new state; the
state-change callback is a side effect outside the model. -/
def Deck.set_state (d : Deck) (s : DeckState) : Deck :=
  { d with state := s }

/-- `Deck.play` (deck.py:161): rejected for an empty deck; returns True
unchanged when already playing; otherwise sets the playing flag and
transitions to Playing. -/
def Deck.play (d : Deck) : Bool × Deck :=
  if d.state = .empty then (false, d)
  else if d.is_playing then (true, d)
  else (true, Deck.set_state { d with is_playing := true, is_paused := false } .playing)

/-- `Deck.stop` (deck.py:188): clears the flags, resets the position and
returns to Loaded unless the deck is Empty or Error. -/
def Deck.stop (d : Deck) : Deck :=
  let d1 := { d with is_playing := false, is_paused := false, position := 0 }
  if d1.state = .empty ∨ d1.state = .error then d1 else Deck.set_state d1 .loaded

/-- `Deck.set_volume` (deck.py:204): clamp to [0, 1] on write. -/
def Deck.set_volume (d : Deck) (v : ℚ) : Deck :=
  { d with volume := max 0 (min 1 v) }

/-- `Deck.set_balance` (deck.py:213): clamp to [-1, 1] on write. -/
def Deck.set_balance (d : Deck) (b : ℚ) : Deck :=
  { d with balance := max (-1) (min 1 b) }

/-- `Deck.get_effective_volume` (deck.py:332): 0 when muted. -/
def Deck.get_effective_volume (d : Deck) : ℚ :=
  if d.mute then 0 else d.volume

/-- `Deck.get_left_right_volumes` (deck.py:341): the linear pan law as
written in the source. -/
def Deck.get_left_right_volumes (d : Deck) : ℚ × ℚ :=
  let effective_volume := d.get_effective_volume
  if d.balance ≤ 0 then
    (effective_volume, effective_volume * (1 + d.balance))
  else
    (effective_volume * (1 - d.balance), effective_volume)

/-- Modelled from the spec: the linear (constant-gain) pan law as §4.1
states it — effective volume `v = mute ? 0 : volume`; if `balance ≤ 0`
then `left = v, right = v·(1+balance)`, else `left = v·(1−balance),
right = v`. -/
def specPanLaw (volume balance : ℚ) (mute : Bool) : ℚ × ℚ :=
  let v := if mute then 0 else volume
  if balance ≤ 0 then (v, v * (1 + balance)) else (v * (1 - balance), v)

/-- `Deck.seek_samples` (deck.py:253): no-op for streams; with decoded
audio the position is clamped to [0, len(audio_data)]; without decoded
audio only `max(0, ...)` is applied. -/
def Deck.seek_samples (d : Deck) (position_samples : Int) : Deck :=
  if d.is_stream then d
  else
    match d.audio_data with
    | some ad => { d with position := (max 0 (min position_samples (ad.length : Int))).toNat }
    | none => { d with position := (max 0 position_samples).toNat }

/-- `Deck.seek` (deck.py:238): no-op for streams or when the sample rate
is unknown; otherwise converts seconds to samples with `int(...)` and
delegates to `seek_samples`. -/
def Deck.seek (d : Deck) (position_seconds : ℚ) : Deck :=
  if d.is_stream then d
  else
    match d.sample_rate with
    | none => d
    | some rate => d.seek_samples (pyInt (position_seconds * rate))

/-- `Deck.get_position_seconds` (deck.py:286). -/
def Deck.get_position_seconds (d : Deck) : ℚ :=
  match d.sample_rate with
  | none => 0
  | some rate => if rate = 0 then 0 else (d.position : ℚ) / rate

/-- `Deck.seek_relative` (deck.py:272): no-op for streams or unknown
sample rate; otherwise seeks to current seconds plus delta. -/
def Deck.seek_relative (d : Deck) (delta_seconds : ℚ) : Deck :=
  if d.is_stream then d
  else
    match d.sample_rate with
    | none => d
    | some _ => d.seek (d.get_position_seconds + delta_seconds)

/-- `Deck.get_duration_samples` (deck.py:308): 0 when nothing decoded. -/
def Deck.get_duration_samples (d : Deck) : Nat :=
  match d.audio_data with
  | none => 0
  | some ad => ad.length

/-- Persisted per-deck configuration dictionary, the keys read by
`Deck.from_dict` (deck.py:429); a missing key is `none`. -/
structure DeckData where
  file : Option String
  name : Option String
  volume : Option ℚ
  balance : Option ℚ
  mute : Option Bool
  loop : Option Bool
deriving DecidableEq

/-- `Deck.load_file` (deck.py:80) restricted to local (non-URL) paths:
when the file exists the deck becomes Loaded with `position = 0`;
a missing file raises FileNotFoundError, caught in `load_file` itself,
which transitions to Error and returns False.  `fileExists` stands for
the filesystem check. -/
def Deck.load_file_local (d : Deck) (f : String) (fileExists : Bool) : Bool × Deck :=
  if fileExists then
    (true, { d with is_stream := false, file_path := some f, state := .loaded, position := 0 })
  else
    (false, { d with state := .error })

/-- `Deck.from_dict` (deck.py:429) for a local file path: bails out when
no file is recorded; otherwise assigns name, volume, balance, mute and
loop directly from the dictionary (no clamping in the source) and then
loads the file. -/
def Deck.from_dict (d : Deck) (data : DeckData) (fileExists : Bool) : Bool × Deck :=
  match data.file with
  | none => (false, d)
  | some f =>
    if f = "" then (false, d)
    else
      let d1 := { d with
        name := data.name.getD ("Deck " ++ toString d.deck_id)
        volume := data.volume.getD 1
        balance := data.balance.getD 0
        mute := data.mute.getD false
        loop := data.loop.getD false }
      d1.load_file_local f fileExists

/-- Operations of the claim "all sequences of setVolume/setBalance". -/
inductive DeckOp
  | vol (v : ℚ)
  | bal (b : ℚ)

/-- Apply one transport-settings operation. -/
def applyDeckOp (d : Deck) (op : DeckOp) : Deck :=
  match op with
  | .vol v => d.set_volume v
  | .bal b => d.set_balance b

/-- Apply a sequence of setVolume/setBalance calls, oldest first. -/
def applyDeckOps (d : Deck) (ops : List DeckOp) : Deck :=
  ops.foldl applyDeckOp d

/-! ## Mixer (src/audio/mixer.py) -/

/-- Operating modes, from `config/defaults.py` (MODE_*). -/
inductive MixerMode
  | mixer
  | solo
  | automatic
deriving DecidableEq

/-- The mixer state relevant to mode switching and crossfading, from
`Mixer.__init__` (mixer.py:29): the deck array, the operating mode, the
active deck index, the crossfade settings and the crossfade sub-state. -/
structure Mixer where
  decks : List Deck
  mode : MixerMode
  active_deck_index : Nat
  crossfade_enabled : Bool
  crossfade_duration : ℚ
  sample_rate : Nat
  cf_active : Bool
  cf_from : Nat
  cf_to : Nat
  cf_samples_total : Nat
  cf_samples_done : Nat
deriving DecidableEq

/-- Python truthiness of `deck.file_path`: false for None and "". -/
def pyTruthy (s : Option String) : Bool :=
  match s with
  | none => false
  | some str => str ≠ ""

/-- Condition of `Mixer._get_loaded_deck_indices` (mixer.py:658): the
deck holds content when a file path is set or an active stream handler
is attached. -/
def Deck.has_content (d : Deck) : Bool :=
  pyTruthy d.file_path || (d.is_stream && d.stream_handler)

/-- `Mixer._get_loaded_deck_indices` (mixer.py:648): 0-based indices of
the decks that hold content, in deck order. -/
def Mixer.loaded_deck_indices (m : Mixer) : List Nat :=
  (m.decks.enum.filter (fun p => p.2.has_content)).map Prod.fst

/-- `Mixer.set_active_deck` (mixer.py:529): bounds-checked write of the
active deck index (the change callback is outside the model). -/
def Mixer.set_active_deck (m : Mixer) (deck_index : Nat) : Mixer :=
  if deck_index < m.decks.length then { m with active_deck_index := deck_index } else m

/-- `Mixer._start_crossfade` (mixer.py:264): records the endpoints, sets
`samples_total = int(crossfade_duration * sample_rate)`, zeroes the
progress counter and activates the crossfade. -/
def Mixer.start_crossfade (m : Mixer) (from_deck_index to_deck_index : Nat) : Mixer :=
  { m with
    cf_from := from_deck_index
    cf_to := to_deck_index
    cf_samples_total := (pyInt (m.crossfade_duration * (m.sample_rate : ℚ))).toNat
    cf_samples_done := 0
    cf_active := true }

/-- `Mixer._finish_crossfade` (mixer.py:278): deactivates the crossfade
and moves the active deck index to the crossfade target. -/
def Mixer.finish_crossfade (m : Mixer) : Mixer :=
  { m with cf_active := false, active_deck_index := m.cf_to }

/-- Target selection of `Mixer.next_deck` (mixer.py:551-567): in
Automatic mode only loaded decks are candidates, and with at most one
loaded deck the call returns early (`none`); a current index that is not
itself loaded falls back to the first loaded deck (the ValueError
branch).  Outside Automatic mode the index simply advances cyclically.
The `getD` defaults are unreachable: the looked-up positions are always
in range. -/
def Mixer.next_target (m : Mixer) : Option Nat :=
  if m.mode = .automatic then
    if m.loaded_deck_indices.length ≤ 1 then none
    else
      match m.loaded_deck_indices.indexOf? m.active_deck_index with
      | some pos =>
        some (m.loaded_deck_indices.getD ((pos + 1) % m.loaded_deck_indices.length) 0)
      | none => some (m.loaded_deck_indices.getD 0 0)
  else some ((m.active_deck_index + 1) % m.decks.length)

/-- Target selection of `Mixer.previous_deck` (mixer.py:586-602).
Python's `(pos - 1) % n` is nonnegative, hence the `Int.emod`. -/
def Mixer.prev_target (m : Mixer) : Option Nat :=
  if m.mode = .automatic then
    if m.loaded_deck_indices.length ≤ 1 then none
    else
      match m.loaded_deck_indices.indexOf? m.active_deck_index with
      | some pos =>
        some (m.loaded_deck_indices.getD
          ((((pos : Int) - 1) % (m.loaded_deck_indices.length : Int)).toNat) 0)
      | none => some (m.loaded_deck_indices.getD (m.loaded_deck_indices.length - 1) 0)
  else some ((((m.active_deck_index : Int) - 1) % (m.decks.length : Int)).toNat)

/-- `Mixer.next_deck` (mixer.py:543): picks the target, decides whether
to crossfade (`use_crossfade = None` means: Automatic mode with
crossfade enabled), and either starts a crossfade — only when none is
active — or switches the active deck immediately. -/
def Mixer.next_deck (m : Mixer) (use_crossfade : Option Bool) : Mixer :=
  match m.next_target with
  | none => m
  | some next_index =>
    let use := use_crossfade.getD ((m.mode == MixerMode.automatic) && m.crossfade_enabled)
    if use && !m.cf_active then m.start_crossfade m.active_deck_index next_index
    else m.set_active_deck next_index

/-- `Mixer.previous_deck` (mixer.py:578): same shape as `next_deck`. -/
def Mixer.previous_deck (m : Mixer) (use_crossfade : Option Bool) : Mixer :=
  match m.prev_target with
  | none => m
  | some prev_index =>
    let use := use_crossfade.getD ((m.mode == MixerMode.automatic) && m.crossfade_enabled)
    if use && !m.cf_active then m.start_crossfade m.active_deck_index prev_index
    else m.set_active_deck prev_index

/-! ## Crossfade block generation (mixer.py:209-262) -/

/-- numpy `linspace(a, b, n)` with the default inclusive endpoint: `n`
evenly spaced rationals from `a` to `b`; `n = 1` yields `[a]`. -/
def linspace (a b : ℚ) (n : Nat) : List ℚ :=
  if n = 0 then []
  else if n = 1 then [a]
  else (List.range n).map (fun (i : Nat) => a + (b - a) * (i : ℚ) / ((n : ℚ) - 1))

/-- Gain computation of `Mixer._generate_crossfade_audio` (mixer.py:211-253):
`fade_start = samples_done/samples_total`, the counter advances by the
block size, `fade_end = min(1, samples_done'/samples_total)`, the fade
curve ramps linearly across the block, the outgoing gain is
`1 - curve` and the incoming gain is `curve`.  Returns the two
per-sample gain vectors and the advanced counter. -/
def crossfade_gains (samples_done samples_total frames : Nat) :
    (List ℚ × List ℚ) × Nat :=
  let fade_start : ℚ := (samples_done : ℚ) / (samples_total : ℚ)
  let done' := samples_done + frames
  let fade_end : ℚ := min 1 ((done' : ℚ) / (samples_total : ℚ))
  let fade_curve := linspace fade_start fade_end frames
  ((fade_curve.map (fun x => 1 - x), fade_curve), done')

/-- One crossfade block of `Mixer._generate_crossfade_audio`: computes
the gain vectors, advances `samples_done`, and finishes the crossfade
(mixer.py:256-257) once the counter reaches the total. -/
def Mixer.crossfade_step (m : Mixer) (frames : Nat) :
    (List ℚ × List ℚ) × Mixer :=
  let g := crossfade_gains m.cf_samples_done m.cf_samples_total frames
  let m1 := { m with cf_samples_done := g.2 }
  (g.1, if m1.cf_samples_total ≤ m1.cf_samples_done then m1.finish_crossfade else m1)

/-! ## Deck audio extraction (mixer.py:287-369) -/

/-- `AudioEngine.apply_volume_and_balance` (audio_engine.py:299): scale
the left channel by `left_volume` and the right channel by
`right_volume`. -/
def apply_volume_and_balance (chunk : List Frame) (left_volume right_volume : ℚ) :
    List Frame :=
  chunk.map (fun f => (f.1 * left_volume, f.2 * right_volume))

/-- The "Extract chunk" step of `Mixer._get_deck_audio`
(mixer.py:338-355) on a buffer slice from `start` to `fin`
(`fin = start + frames`): a looping deck wraps by splicing the suffix
and a prefix and the position becomes the remainder; a non-looping deck
pads with silence and the position becomes the buffer length; otherwise
a plain slice.  Returns the chunk and the new position.  Python slices
clamp exactly like `List.take`/`List.drop`. -/
def extract_chunk (buf : List Frame) (loop : Bool) (start fin : Nat) :
    List Frame × Nat :=
  if buf.length < fin then
    if loop then
      (buf.drop start ++ buf.take (fin - buf.length), fin - buf.length)
    else
      (buf.drop start ++ List.replicate (fin - buf.length) silentFrame, buf.length)
  else ((buf.drop start).take (fin - start), fin)

/-- `Mixer._get_deck_audio` (mixer.py:312-365) for a local (non-stream)
deck whose decoded buffer `buf` is present in the mixer's audio cache:
at end of buffer a looping deck restarts at 0 while a non-looping deck
is stopped (returning None); otherwise the chunk is extracted at the
deck position and volume/balance gains are applied.  The per-deck
effect chain (`deck.effects.process`, effects.py:173-174) returns the
audio unchanged while no effect is configured and is modelled as the
identity. -/
def get_deck_audio_local (buf : List Frame) (d : Deck) (frames : Nat) :
    Option (List Frame) × Deck :=
  if buf.length ≤ d.position then
    if d.loop then
      (some (apply_volume_and_balance (extract_chunk buf d.loop 0 frames).1
          (d.get_left_right_volumes).1 (d.get_left_right_volumes).2),
       { d with position := (extract_chunk buf d.loop 0 frames).2 })
    else (none, d.stop)
  else
    (some (apply_volume_and_balance
        (extract_chunk buf d.loop d.position (d.position + frames)).1
        (d.get_left_right_volumes).1 (d.get_left_right_volumes).2),
     { d with position := (extract_chunk buf d.loop d.position (d.position + frames)).2 })

/-! ## Recorder (src/audio/recorder.py) -/

/-- Total number of frames held in a chunk deque. -/
def totalFrames (buf : List (List Frame)) : Nat :=
  (buf.map List.length).sum

/-- Recorder state, from `Recorder.__init__` (recorder.py:49): the
pre-roll settings and ring buffer, the recording flag and counters.
`sink` is the content of the open output sink (native writer or encoder
pipe), as the ordered list of frames written to it. -/
structure Recorder where
  sample_rate : Nat
  pre_roll_seconds : ℚ
  pre_roll_enabled : Bool
  is_recording : Bool
  pre_roll_buffer : List (List Frame)
  pre_roll_frames_count : Nat
  frames_recorded : Nat
  sink : List Frame
deriving DecidableEq

/-- The buffer cap `int(sample_rate * pre_roll_seconds)` of
recorder.py:181. -/
def Recorder.max_frames (r : Recorder) : Nat :=
  (pyInt ((r.sample_rate : ℚ) * r.pre_roll_seconds)).toNat

/-- The trimming loop of `Recorder.buffer_frames` (recorder.py:182-184):
pop chunks from the front while the frame count exceeds the cap and the
deque is nonempty. -/
def dropOldest (buf : List (List Frame)) (count max_frames : Nat) :
    List (List Frame) × Nat :=
  match buf with
  | [] => ([], count)
  | c :: rest =>
    if max_frames < count then dropOldest rest (count - c.length) max_frames
    else (c :: rest, count)

/-- `Recorder.buffer_frames` (recorder.py:159): no-op when pre-roll is
disabled, when its duration is nonpositive or while recording;
otherwise appends the chunk, bumps the frame count and trims the oldest
chunks down to the cap. -/
def Recorder.buffer_frames (r : Recorder) (chunk : List Frame) : Recorder :=
  if !r.pre_roll_enabled || r.pre_roll_seconds ≤ 0 then r
  else if r.is_recording then r
  else
    let buf := r.pre_roll_buffer ++ [chunk]
    let count := r.pre_roll_frames_count + chunk.length
    let trimmed := dropOldest buf count r.max_frames
    { r with pre_roll_buffer := trimmed.1, pre_roll_frames_count := trimmed.2 }

/-- `Recorder._write_pre_roll_buffer` (recorder.py:189): writes every
buffered chunk to the sink in order, counts the frames, then clears the
buffer. -/
def Recorder.write_pre_roll_buffer (r : Recorder) : Recorder :=
  if r.pre_roll_buffer = [] then r
  else
    { r with
      sink := r.sink ++ r.pre_roll_buffer.flatten
      frames_recorded := r.frames_recorded + totalFrames r.pre_roll_buffer
      pre_roll_buffer := []
      pre_roll_frames_count := 0 }

/-- `Recorder.start_recording` (recorder.py:247) with a sink that opens
successfully: rejected while recording; otherwise a fresh output sink
is opened (modelled as an empty frame list), the recording flag and
counters are set, and the whole pre-roll buffer is written out first
(recorder.py:303), before any live frame. -/
def Recorder.start_recording (r : Recorder) : Bool × Recorder :=
  if r.is_recording then (false, r)
  else
    (true, Recorder.write_pre_roll_buffer
      { r with sink := [], is_recording := true, frames_recorded := 0 })

/-- `Recorder.write_frames` (recorder.py:398): live frames are written
to the sink only while recording. -/
def Recorder.write_frames (r : Recorder) (chunk : List Frame) : Recorder :=
  if !r.is_recording then r
  else { r with sink := r.sink ++ chunk, frames_recorded := r.frames_recorded + chunk.length }

/-! ## StreamHandler (src/audio/stream_handler.py) -/

/-- StreamHandler state relevant to `get_audio_data`: the decoded chunk
buffer (stream_handler.py:59) and the module-level FFmpeg availability
flag (stream_handler.py:27). -/
structure StreamHandler where
  ffmpeg_available : Bool
  decoded_buffer : List (List Frame)
deriving DecidableEq

/-- The collection loop of `StreamHandler.get_audio_data`
(stream_handler.py:289-299): take whole chunks from the front while
they fit, split the first chunk that does not; returns the collected
chunks and the remaining buffer. -/
def collect_samples (buf : List (List Frame)) (needed : Nat) :
    List (List Frame) × List (List Frame) :=
  match buf with
  | [] => ([], [])
  | chunk :: rest =>
    if needed = 0 then ([], chunk :: rest)
    else if chunk.length ≤ needed then
      let x := collect_samples rest (needed - chunk.length)
      (chunk :: x.1, x.2)
    else ([chunk.take needed], chunk.drop needed :: rest)

/-- `StreamHandler.get_audio_data` (stream_handler.py:265): returns None
when FFmpeg is unavailable; silence when the buffer is empty; otherwise
the collected chunks are concatenated, zero-padded up to the requested
count and truncated to exactly that count. -/
def StreamHandler.get_audio_data (s : StreamHandler) (num_samples : Nat) :
    Option (List Frame) × StreamHandler :=
  if !s.ffmpeg_available then (none, s)
  else if s.decoded_buffer = [] then
    (some (List.replicate num_samples silentFrame), s)
  else
    let x := collect_samples s.decoded_buffer num_samples
    let result := x.1.flatten
    let padded := result ++ List.replicate (num_samples - result.length) silentFrame
    (some (padded.take num_samples), { s with decoded_buffer := x.2 })

/-- Scenario state of spec §8: Automatic mode with 3 decks of which only
decks 0 and 2 hold content, deck 0 active, no crossfade in flight. -/
def mixerScenario : Mixer :=
  { decks := [{ Deck.init 1 with file_path := some "a.mp3" }, Deck.init 2,
              { Deck.init 3 with file_path := some "c.mp3" }]
    mode := .automatic
    active_deck_index := 0
    crossfade_enabled := true
    crossfade_duration := 2
    sample_rate := 44100
    cf_active := false
    cf_from := 0
    cf_to := 0
    cf_samples_total := 0
    cf_samples_done := 0 }

/-- The scenario state while a crossfade from deck 0 to deck 2 is in
flight. -/
def mixerMidFade : Mixer :=
  { mixerScenario with
    cf_active := true, cf_from := 0, cf_to := 2,
    cf_samples_total := 88200, cf_samples_done := 4410 }

/-- A concrete 2-frame decoded buffer. -/
def audioBufDemo : List Frame := [((1:ℚ),(2:ℚ)), ((3:ℚ),(4:ℚ))]

/-- A concrete looping deck at default volume/balance, positioned on the
second frame of its buffer. -/
def loopDeckDemo : Deck := { Deck.init 1 with loop := true, position := 1 }

/-- A concrete stream handler with FFmpeg available and two buffered
chunks totalling 3 frames. -/
def streamDemo : StreamHandler :=
  { ffmpeg_available := true
    decoded_buffer := [[((1:ℚ),(1:ℚ)), ((2:ℚ),(2:ℚ))], [((3:ℚ),(3:ℚ))]] }

/-- A concrete recorder: 4 Hz sample rate, 1 s pre-roll (cap 4 frames),
pre-roll enabled, not recording, two buffered chunks totalling 3
frames. -/
def recorderDemo : Recorder :=
  { sample_rate := 4
    pre_roll_seconds := 1
    pre_roll_enabled := true
    is_recording := false
    pre_roll_buffer := [[((1:ℚ),(1:ℚ)), ((2:ℚ),(2:ℚ))], [((3:ℚ),(3:ℚ))]]
    pre_roll_frames_count := 3
    frames_recorded := 0
    sink := [] }

/-! ## Helper lemmas -/

/-- Clamped volume writes land in [0, 1]. -/
lemma set_volume_mem (d : Deck) (v : ℚ) :
    0 ≤ (d.set_volume v).volume ∧ (d.set_volume v).volume ≤ 1 := by
  unfold Deck.set_volume
  refine ⟨le_max_left _ _, max_le (by norm_num) (min_le_left _ _)⟩

/-- Clamped balance writes land in [-1, 1]. -/
lemma set_balance_mem (d : Deck) (b : ℚ) :
    -1 ≤ (d.set_balance b).balance ∧ (d.set_balance b).balance ≤ 1 := by
  unfold Deck.set_balance
  refine ⟨le_max_left _ _, max_le (by norm_num) (min_le_left _ _)⟩

/-- With decoded audio, `seek_samples` leaves the position at most the
decoded length. -/
lemma seek_samples_le (d : Deck) (n : Int) (ad : List Frame)
    (hs : d.is_stream = false) (had : d.audio_data = some ad) :
    (d.seek_samples n).position ≤ ad.length := by
  unfold Deck.seek_samples
  rw [hs, had]
  simp only [Bool.false_eq_true, if_false]
  omega

/-- Every loaded deck index is a valid index into the deck array. -/
lemma mem_loaded_lt (m : Mixer) (i : Nat) (hi : i ∈ m.loaded_deck_indices) :
    i < m.decks.length := by
  unfold Mixer.loaded_deck_indices at hi
  obtain ⟨p, hp, rfl⟩ := List.mem_map.mp hi
  exact List.fst_lt_of_mem_enum (List.mem_filter.mp hp).1

/-- In Automatic mode, a target produced by the `next_deck` candidate
selection is one of the loaded deck indices. -/
lemma next_target_mem (m : Mixer) (t : Nat) (hmode : m.mode = .automatic)
    (ht : m.next_target = some t) : t ∈ m.loaded_deck_indices := by
  unfold Mixer.next_target at ht
  rw [if_pos hmode] at ht
  split at ht
  · exact absurd ht (by simp)
  · rename_i hlen
    split at ht
    · rename_i pos hpos
      obtain rfl := Option.some.inj ht
      have hlt : (pos + 1) % m.loaded_deck_indices.length < m.loaded_deck_indices.length :=
        Nat.mod_lt _ (by omega)
      rw [List.getD_eq_getElem _ _ hlt]
      exact List.getElem_mem hlt
    · obtain rfl := Option.some.inj ht
      have hlt : 0 < m.loaded_deck_indices.length := by omega
      rw [List.getD_eq_getElem _ _ hlt]
      exact List.getElem_mem hlt

/-- In Automatic mode, a target produced by the `previous_deck`
candidate selection is one of the loaded deck indices. -/
lemma prev_target_mem (m : Mixer) (t : Nat) (hmode : m.mode = .automatic)
    (ht : m.prev_target = some t) : t ∈ m.loaded_deck_indices := by
  unfold Mixer.prev_target at ht
  rw [if_pos hmode] at ht
  split at ht
  · exact absurd ht (by simp)
  · rename_i hlen
    split at ht
    · rename_i pos hpos
      obtain rfl := Option.some.inj ht
      have hlt : ((((pos : Int) - 1) % (m.loaded_deck_indices.length : Int))).toNat <
          m.loaded_deck_indices.length := by
        have h0 : (0 : Int) < (m.loaded_deck_indices.length : Int) := by
          exact_mod_cast Nat.pos_of_ne_zero (by omega)
        have := Int.emod_lt_of_pos ((pos : Int) - 1) h0
        omega
      rw [List.getD_eq_getElem _ _ hlt]
      exact List.getElem_mem hlt
    · obtain rfl := Option.some.inj ht
      have hlt : m.loaded_deck_indices.length - 1 < m.loaded_deck_indices.length := by omega
      rw [List.getD_eq_getElem _ _ hlt]
      exact List.getElem_mem hlt

/-- `linspace` always yields one value per requested point. -/
lemma linspace_length (a b : ℚ) (n : Nat) : (linspace a b n).length = n := by
  unfold linspace
  split_ifs with h0 h1
  · simp [h0]
  · simp [h1]
  · rw [List.length_map, List.length_range]

/-- Pointwise, the outgoing gain `1 - x` and the incoming gain `x` sum
to exactly 1. -/
lemma zipWith_gain_sum (c : List ℚ) :
    List.zipWith (fun a b => a + b) (c.map (fun x => 1 - x)) c =
      List.replicate c.length 1 := by
  induction c with
  | nil => rfl
  | cons x xs ih =>
    simp only [List.map_cons, List.zipWith_cons_cons, ih, List.length_cons,
      List.replicate_succ, sub_add_cancel]

/-- Invariant, bound and oldest-first shape of the pre-roll trimming
loop: assuming the running count matches the buffered total, after
trimming the count still matches, the total is within the cap, and the
surviving buffer is a suffix of the input (chunks are dropped from the
front only). -/
lemma dropOldest_spec (buf : List (List Frame)) (count max_frames : Nat)
    (h : count = totalFrames buf) :
    (dropOldest buf count max_frames).2 = totalFrames (dropOldest buf count max_frames).1 ∧
    totalFrames (dropOldest buf count max_frames).1 ≤ max_frames ∧
    (dropOldest buf count max_frames).1.IsSuffix buf := by
  induction buf generalizing count with
  | nil =>
    refine ⟨by simpa [dropOldest] using h, ?_, List.suffix_refl _⟩
    simp [dropOldest, h, totalFrames]
  | cons c rest ih =>
    unfold dropOldest
    split_ifs with hgt
    · have hrest : count - c.length = totalFrames rest := by
        unfold totalFrames at h ⊢
        simp only [List.map_cons, List.sum_cons] at h
        omega
      obtain ⟨h1, h2, h3⟩ := ih (count - c.length) hrest
      exact ⟨h1, h2, h3.trans (List.suffix_cons c rest)⟩
    · refine ⟨h, ?_, List.suffix_refl _⟩
      show totalFrames (c :: rest) ≤ max_frames
      omega

/-- The chunks collected by the `get_audio_data` loop concatenate to
exactly the first `needed` frames of the buffered audio, in order. -/
lemma collect_samples_flatten (buf : List (List Frame)) (needed : Nat) :
    (collect_samples buf needed).1.flatten = buf.flatten.take needed := by
  induction buf generalizing needed with
  | nil => simp [collect_samples]
  | cons chunk rest ih =>
    unfold collect_samples
    split_ifs with h0 hle
    · simp [h0]
    · simp only [List.flatten_cons, ih, List.take_append_eq_append_take,
        List.take_of_length_le hle]
    · simp only [List.flatten_cons, List.flatten_nil, List.append_nil,
        List.take_append_of_le_length (by omega : needed ≤ chunk.length)]

/-- Unit gains leave a chunk unchanged. -/
lemma apply_volume_and_balance_one (chunk : List Frame) :
    apply_volume_and_balance chunk 1 1 = chunk := by
  unfold apply_volume_and_balance
  induction chunk with
  | nil => rfl
  | cons f rest ih => simp [ih]

/-- At default volume 1, centre balance and unmuted, the pan law yields
unit gains on both channels. -/
lemma unit_gains (d : Deck) (hmute : d.mute = false) (hvol : d.volume = 1)
    (hbal : d.balance = 0) : d.get_left_right_volumes = (1, 1) := by
  unfold Deck.get_left_right_volumes Deck.get_effective_volume
  rw [hmute, hvol, hbal]
  norm_num

/-- Behaviour of the looping "Extract chunk" step: starting inside the
buffer at `q` and asking for `k` frames (at most one full extra wrap),
the produced chunk is the first `k` frames of suffix-from-`q` followed
by the whole buffer, and the new position is `q + k`, reduced by the
buffer length once when it overshoots. -/
lemma extract_loop_spec (buf : List Frame) (q k fin : Nat) (hfin : fin = q + k)
    (hqL : q < buf.length) (hbound : q + k ≤ 2 * buf.length) :
    (extract_chunk buf true q fin).1 = (buf.drop q ++ buf).take k ∧
    (extract_chunk buf true q fin).2 =
      (if q + k ≤ buf.length then q + k else q + k - buf.length) := by
  subst hfin
  unfold extract_chunk
  by_cases h1 : buf.length < q + k
  · -- wrap around: suffix from q, then a prefix of the buffer
    rw [if_pos h1, if_pos rfl]
    dsimp only
    constructor
    · have hd : (buf.drop q).length = buf.length - q := List.length_drop q buf
      have hdk : (buf.drop q).take k = buf.drop q :=
        List.take_of_length_le (by omega)
      rw [List.take_append_eq_append_take, hdk, hd]
      have hkk : k - (buf.length - q) = q + k - buf.length := by omega
      rw [hkk]
    · rw [if_neg (by omega)]
  · -- plain slice inside the buffer
    rw [if_neg h1]
    dsimp only
    constructor
    · have hkk : q + k - q = k := by omega
      rw [hkk, List.take_append_of_le_length (by rw [List.length_drop]; omega)]
    · rw [if_pos (by omega)]

/-- `set_active_deck` never touches the crossfade sub-state. -/
lemma set_active_deck_cf (m : Mixer) (i : Nat) :
    (m.set_active_deck i).cf_active = m.cf_active ∧
    (m.set_active_deck i).cf_from = m.cf_from ∧
    (m.set_active_deck i).cf_to = m.cf_to ∧
    (m.set_active_deck i).cf_samples_total = m.cf_samples_total ∧
    (m.set_active_deck i).cf_samples_done = m.cf_samples_done := by
  unfold Mixer.set_active_deck
  split <;> exact ⟨rfl, rfl, rfl, rfl, rfl⟩

/-! ## Claim theorems -/

/-- C3: for every deck and every setting of volume, balance and mute,
`get_left_right_volumes` implements the spec's linear constant-gain pan
law exactly: with effective volume `v = 0` if muted else `volume`, if
`balance ≤ 0` then `left = v` and `right = v*(1+balance)`, else
`left = v*(1-balance)` and `right = v`. -/
theorem c3_pan_law (d : Deck) :
    d.get_left_right_volumes = specPanLaw d.volume d.balance d.mute := rfl

/-- C10 counterexample: on a deck in the Error state whose playing flag
is already set (reachable: a stream error moves a playing deck to
Error without clearing the flag), `play()` returns True but leaves the
state at Error — it does not transition the deck to Playing, so the
claim as stated fails. -/
theorem c10_counterexample :
    (Deck.play { Deck.init 1 with state := .error, is_playing := true }).1 = true ∧
    (Deck.play { Deck.init 1 with state := .error, is_playing := true }).2.state =
      DeckState.error ∧
    DeckState.error ≠ DeckState.playing := by
  decide

/-- C10 (amended): `play()` is rejected (returns False, unchanged)
exactly for decks in the Empty state; on any non-empty deck — in
particular one in the Error state — whose playing flag is clear it
returns True, sets the playing flag and transitions to Playing; if the
playing flag is already set it returns True and leaves the deck
unchanged (so an Error deck stays in Error in that case).  The spec's
deck state machine has no Error → Playing edge, but the code takes it. -/
theorem c10_play_characterization (d : Deck) :
    ((d.play).1 = false ↔ d.state = .empty) ∧
    (d.state = .empty → d.play = (false, d)) ∧
    (d.state ≠ .empty → d.is_playing = false →
      d.play = (true, { d with is_playing := true, is_paused := false, state := .playing })) ∧
    (d.state ≠ .empty → d.is_playing = true → d.play = (true, d)) := by
  unfold Deck.play Deck.set_state
  by_cases h : d.state = .empty
  · simp [h]
  · cases hp : d.is_playing <;> simp [h, hp]

/-- C10 witness: a concrete Error-state deck with the playing flag clear
is started by `play()` and moves to Playing. -/
theorem c10_witness :
    Deck.play { Deck.init 2 with state := .error } =
      (true, { { Deck.init 2 with state := .error } with
               is_playing := true, is_paused := false, state := .playing }) :=
  (c10_play_characterization { Deck.init 2 with state := .error }).2.2.1
    (by decide) (by decide)

/-- C6 counterexample: loading a deck configuration through `from_dict`
with persisted `volume = 2` and `balance = -2` stores those values
unclamped, so after this write `volume ∉ [0,1]` and `balance ∉ [-1,1]`;
the claim that volume/balance are clamped on every write, in
particular by `from_dict`, fails. -/
theorem c6_counterexample :
    (Deck.from_dict (Deck.init 1)
        { file := some "song.mp3", name := none, volume := some 2,
          balance := some (-2), mute := none, loop := none } true).2.volume = 2 ∧
    ¬((Deck.from_dict (Deck.init 1)
        { file := some "song.mp3", name := none, volume := some 2,
          balance := some (-2), mute := none, loop := none } true).2.volume ≤ 1) ∧
    (Deck.from_dict (Deck.init 1)
        { file := some "song.mp3", name := none, volume := some 2,
          balance := some (-2), mute := none, loop := none } true).2.balance = -2 ∧
    ¬(-1 ≤ (Deck.from_dict (Deck.init 1)
        { file := some "song.mp3", name := none, volume := some 2,
          balance := some (-2), mute := none, loop := none } true).2.balance) := by
  decide

/-- C6 (amended): `set_volume` and `set_balance` clamp on every write,
so for every deck with in-range volume and balance (as a freshly
constructed deck has) and every sequence of setVolume/setBalance calls,
`volume ∈ [0,1]` and `balance ∈ [-1,1]` hold afterwards; `from_dict`,
however, assigns persisted values without clamping, so the bounds are
not guaranteed after loading a deck configuration. -/
theorem c6_set_ops_clamped (d : Deck) (ops : List DeckOp)
    (hv : 0 ≤ d.volume ∧ d.volume ≤ 1)
    (hb : -1 ≤ d.balance ∧ d.balance ≤ 1) :
    (0 ≤ (applyDeckOps d ops).volume ∧ (applyDeckOps d ops).volume ≤ 1) ∧
    (-1 ≤ (applyDeckOps d ops).balance ∧ (applyDeckOps d ops).balance ≤ 1) := by
  induction ops generalizing d with
  | nil => exact ⟨hv, hb⟩
  | cons op rest ih =>
    cases op with
    | vol v =>
      refine ih (d.set_volume v) (set_volume_mem d v) ?_
      simpa [Deck.set_volume] using hb
    | bal b =>
      refine ih (d.set_balance b) ?_ (set_balance_mem d b)
      simpa [Deck.set_balance] using hv

/-- C6 witness: a fresh deck run through a wildly out-of-range
setVolume/setBalance sequence stays inside the bounds. -/
theorem c6_witness :
    ((0 ≤ (Deck.init 1).volume ∧ (Deck.init 1).volume ≤ 1) ∧
      (-1 ≤ (Deck.init 1).balance ∧ (Deck.init 1).balance ≤ 1)) ∧
    ((0 ≤ (applyDeckOps (Deck.init 1) [.vol 5, .bal (-3), .vol (-2), .bal 7]).volume ∧
        (applyDeckOps (Deck.init 1) [.vol 5, .bal (-3), .vol (-2), .bal 7]).volume ≤ 1) ∧
      (-1 ≤ (applyDeckOps (Deck.init 1) [.vol 5, .bal (-3), .vol (-2), .bal 7]).balance ∧
        (applyDeckOps (Deck.init 1) [.vol 5, .bal (-3), .vol (-2), .bal 7]).balance ≤ 1)) :=
  ⟨⟨by decide, by decide⟩,
    c6_set_ops_clamped (Deck.init 1) [.vol 5, .bal (-3), .vol (-2), .bal 7]
      (by decide) (by decide)⟩

/-- C9 counterexample: on a local deck whose audio has not been decoded
(`audio_data = None`, decoded length 0), `seek_samples(5)` sets
`position = 5`, which is not clamped to `[0, decodedLength] = [0, 0]`;
the claim that the seek family always clamps to `[0, decodedLength]`
on local decks fails. -/
theorem c9_counterexample :
    ((Deck.init 3).seek_samples 5).position = 5 ∧
    (Deck.init 3).get_duration_samples = 0 ∧
    (Deck.init 3).is_stream = false ∧
    ¬(((Deck.init 3).seek_samples 5).position ≤ (Deck.init 3).get_duration_samples) := by
  decide

/-- C9 (amended): `seek`, `seek_samples` and `seek_relative` are no-ops
for stream sources; `seek` and `seek_relative` are also no-ops on local
decks whose sample rate is unknown; on local decks with decoded audio
all three clamp the resulting position to `[0, decodedLength]`
(`seek_samples` to exactly `max 0 (min n decodedLength)`); on local
decks without decoded audio `seek_samples` only clamps below at 0. -/
theorem c9_seek_clamping (d : Deck) (n : Int) (secs delta : ℚ) :
    (d.is_stream = true →
      d.seek_samples n = d ∧ d.seek secs = d ∧ d.seek_relative delta = d) ∧
    (∀ ad, d.is_stream = false → d.audio_data = some ad →
      (d.seek_samples n).position = (max 0 (min n (ad.length : Int))).toNat ∧
      (d.seek_samples n).position ≤ ad.length) ∧
    (d.is_stream = false → d.sample_rate = none →
      d.seek secs = d ∧ d.seek_relative delta = d) ∧
    (∀ ad r, d.is_stream = false → d.sample_rate = some r → d.audio_data = some ad →
      (d.seek secs).position ≤ ad.length ∧
      (d.seek_relative delta).position ≤ ad.length) := by
  refine ⟨?_, ?_, ?_, ?_⟩
  · intro h
    refine ⟨?_, ?_, ?_⟩
    · unfold Deck.seek_samples; rw [h]; simp
    · unfold Deck.seek; rw [h]; simp
    · unfold Deck.seek_relative; rw [h]; simp
  · intro ad hs had
    constructor
    · unfold Deck.seek_samples; rw [hs, had]; simp
    · exact seek_samples_le d n ad hs had
  · intro hs hr
    constructor
    · unfold Deck.seek; rw [hs, hr]; simp
    · unfold Deck.seek_relative; rw [hs, hr]; simp
  · intro ad r hs hr had
    constructor
    · unfold Deck.seek; rw [hs, hr]
      simpa using seek_samples_le d (pyInt (secs * r)) ad hs had
    · unfold Deck.seek_relative Deck.seek; rw [hs, hr]
      simpa using
        seek_samples_le d (pyInt ((d.get_position_seconds + delta) * r)) ad hs had

/-- C5: in Automatic mode, `next_deck`'s candidate set is restricted to
decks that hold content (a file path set or an active stream): any
selected target index is a loaded deck index and the deck stored there
holds content, so empty decks are skipped. -/
theorem c5_next_deck_skips_empty (m : Mixer) (t : Nat)
    (hmode : m.mode = .automatic) (ht : m.next_target = some t) :
    t ∈ m.loaded_deck_indices ∧
    ∃ d, m.decks[t]? = some d ∧ d.has_content = true := by
  have hmem := next_target_mem m t hmode ht
  refine ⟨hmem, ?_⟩
  unfold Mixer.loaded_deck_indices at hmem
  obtain ⟨p, hp, rfl⟩ := List.mem_map.mp hmem
  obtain ⟨henum, hc⟩ := List.mem_filter.mp hp
  exact ⟨p.2, List.mem_enum_iff_getElem?.mp henum, hc⟩

/-- C5 witness: in the spec's 3-deck scenario (only decks 0 and 2 hold
content, deck 0 active) `next_deck` selects deck 2, skipping the empty
deck 1, and deck 2 is indeed a content-holding deck; the call starts a
crossfade targeting deck 2. -/
theorem c5_witness :
    mixerScenario.next_target = some 2 ∧
    (2 ∈ mixerScenario.loaded_deck_indices ∧
      ∃ d, mixerScenario.decks[2]? = some d ∧ d.has_content = true) ∧
    (mixerScenario.next_deck none).cf_active = true ∧
    (mixerScenario.next_deck none).cf_to = 2 :=
  ⟨by decide, c5_next_deck_skips_empty mixerScenario 2 (by decide) (by decide),
    by decide, by decide⟩

/-- C4 counterexample: in Automatic mode with crossfade enabled and a
crossfade already in progress (from deck 0 to deck 2), calling
`next_deck()` is not a no-op: it immediately changes the active deck
index from 0 to 2 (without starting a new crossfade). -/
theorem c4_counterexample :
    mixerMidFade.mode = MixerMode.automatic ∧
    mixerMidFade.crossfade_enabled = true ∧
    mixerMidFade.cf_active = true ∧
    mixerMidFade.active_deck_index = 0 ∧
    (mixerMidFade.next_deck none).active_deck_index = 2 ∧
    (mixerMidFade.previous_deck none).active_deck_index = 2 := by
  decide

/-- C4 (amended): in Automatic mode, when a crossfade is already in
progress, `next_deck()` (and `previous_deck()`) does not start a new
crossfade — the crossfade sub-state is left untouched — but the call is
not a no-op: it falls through to `set_active_deck` and immediately
switches `active_deck_index` to the computed target deck. -/
theorem c4_during_crossfade (m : Mixer) (tn tp : Nat)
    (hmode : m.mode = .automatic) (hcf : m.cf_active = true)
    (htn : m.next_target = some tn) (htp : m.prev_target = some tp) :
    m.next_deck none = m.set_active_deck tn ∧
    (m.next_deck none).active_deck_index = tn ∧
    (m.next_deck none).cf_active = true ∧
    (m.next_deck none).cf_from = m.cf_from ∧
    (m.next_deck none).cf_to = m.cf_to ∧
    (m.next_deck none).cf_samples_total = m.cf_samples_total ∧
    (m.next_deck none).cf_samples_done = m.cf_samples_done ∧
    m.previous_deck none = m.set_active_deck tp ∧
    (m.previous_deck none).active_deck_index = tp := by
  have hn : m.next_deck none = m.set_active_deck tn := by
    unfold Mixer.next_deck
    rw [htn]
    simp [hcf]
  have hp : m.previous_deck none = m.set_active_deck tp := by
    unfold Mixer.previous_deck
    rw [htp]
    simp [hcf]
  have hlt_n : tn < m.decks.length :=
    mem_loaded_lt m tn (next_target_mem m tn hmode htn)
  have hlt_p : tp < m.decks.length :=
    mem_loaded_lt m tp (prev_target_mem m tp hmode htp)
  have hcfs := set_active_deck_cf m tn
  refine ⟨hn, ?_, ?_, ?_, ?_, ?_, ?_, hp, ?_⟩
  · rw [hn]; unfold Mixer.set_active_deck; rw [if_pos hlt_n]
  · rw [hn, hcfs.1, hcf]
  · rw [hn, hcfs.2.1]
  · rw [hn, hcfs.2.2.1]
  · rw [hn, hcfs.2.2.2.1]
  · rw [hn, hcfs.2.2.2.2]
  · rw [hp]; unfold Mixer.set_active_deck; rw [if_pos hlt_p]

/-- C4 witness: in the concrete mid-crossfade scenario, `next_deck()`
leaves the crossfade sub-state alone and switches the active index to
deck 2. -/
theorem c4_witness :
    (mixerMidFade.next_deck none).active_deck_index = 2 ∧
    (mixerMidFade.next_deck none).cf_active = true ∧
    (mixerMidFade.next_deck none).cf_samples_done = mixerMidFade.cf_samples_done ∧
    (mixerMidFade.previous_deck none).active_deck_index = 2 := by
  have h := c4_during_crossfade mixerMidFade 2 2 (by decide) (by decide)
    (by decide) (by decide)
  exact ⟨h.2.1, h.2.2.1, h.2.2.2.2.2.2.1, h.2.2.2.2.2.2.2.2⟩

/-- C1 (amended): for every looping local deck at default gain (volume
1, centre balance, unmuted, no effects) whose decoded buffer of length
`L > 0` is present in the audio cache, requesting `k ≥ 1` frames at
position `p` (`0 ≤ p ≤ L`) with `(p % L) + k ≤ 2L` returns the
wrap-around concatenation — the first `k` frames of the buffer suffix
starting at `p % L` followed by the buffer — and leaves the position
congruent to `(p + k) mod L`, but with the representative in `(0, L]`:
the new position is `q + k` if that is at most `L` and `q + k − L`
otherwise (`q = p % L`), so at an exact buffer boundary the position is
left at `L`, not 0 (the next extraction treats `L` as 0). -/
theorem c1_loop_extraction (buf : List Frame) (d : Deck) (k : Nat)
    (hloop : d.loop = true) (hmute : d.mute = false) (hvol : d.volume = 1)
    (hbal : d.balance = 0) (hpos : d.position ≤ buf.length) (hk : 1 ≤ k)
    (hL : 0 < buf.length)
    (hbound : d.position % buf.length + k ≤ 2 * buf.length) :
    (get_deck_audio_local buf d k).1 =
      some ((buf.drop (d.position % buf.length) ++ buf).take k) ∧
    (get_deck_audio_local buf d k).2.position =
      (if d.position % buf.length + k ≤ buf.length
        then d.position % buf.length + k
        else d.position % buf.length + k - buf.length) ∧
    (get_deck_audio_local buf d k).2.position % buf.length =
      (d.position + k) % buf.length ∧
    (get_deck_audio_local buf d k).2.position ≤ buf.length := by
  have hlr := unit_gains d hmute hvol hbal
  suffices h : (get_deck_audio_local buf d k).1 =
      some ((buf.drop (d.position % buf.length) ++ buf).take k) ∧
      (get_deck_audio_local buf d k).2.position =
        (if d.position % buf.length + k ≤ buf.length
          then d.position % buf.length + k
          else d.position % buf.length + k - buf.length) by
    refine ⟨h.1, h.2, ?_, ?_⟩
    · rw [h.2]
      by_cases hc : d.position % buf.length + k ≤ buf.length
      · rw [if_pos hc]
        exact Nat.mod_add_mod _ _ _
      · rw [if_neg hc]
        have h2 : d.position % buf.length + k - buf.length + buf.length =
            d.position % buf.length + k := by omega
        calc (d.position % buf.length + k - buf.length) % buf.length
            = (d.position % buf.length + k - buf.length + buf.length) %
                buf.length := (Nat.add_mod_right _ _).symm
          _ = (d.position % buf.length + k) % buf.length := by rw [h2]
          _ = (d.position + k) % buf.length := Nat.mod_add_mod _ _ _
    · rw [h.2]
      by_cases hc : d.position % buf.length + k ≤ buf.length
      · rw [if_pos hc]
        exact hc
      · rw [if_neg hc]
        omega
  by_cases hpL : buf.length ≤ d.position
  · have hpeq : d.position = buf.length := le_antisymm hpos hpL
    have hq : d.position % buf.length = 0 := by
      rw [hpeq]
      exact Nat.mod_self _
    obtain ⟨he1, he2⟩ := extract_loop_spec buf 0 k k (by omega) (by omega) (by omega)
    unfold get_deck_audio_local
    rw [if_pos hpL, if_pos hloop, hloop, hlr]
    dsimp only
    constructor
    · rw [he1, apply_volume_and_balance_one, hq]
    · rw [he2, hq]
  · have hq : d.position % buf.length = d.position := Nat.mod_eq_of_lt (by omega)
    obtain ⟨he1, he2⟩ :=
      extract_loop_spec buf d.position k (d.position + k) rfl (by omega) (by omega)
    unfold get_deck_audio_local
    rw [if_neg hpL, hloop, hlr]
    dsimp only
    constructor
    · rw [he1, apply_volume_and_balance_one, hq]
    · rw [he2, hq]

/-- C1 counterexample: on a 2-frame looping buffer, (i) requesting
`k = L = 2` frames from position 0 (the claimed scenario shape) returns
the whole buffer once but leaves `position = 2 = L`, while the claim
demands `(0 + 2) % 2 = 0`; (ii) requesting `k = 5` frames from position
1 (more than one extra wrap) returns only 3 frames instead of the
claimed 5-frame wrap-around concatenation and leaves `position = 4`,
not `(1 + 5) % 2 = 0`. -/
theorem c1_counterexample :
    (get_deck_audio_local audioBufDemo
        { Deck.init 1 with loop := true, position := 0 } 2).2.position = 2 ∧
    (0 + 2) % audioBufDemo.length = 0 ∧
    ((get_deck_audio_local audioBufDemo
        { Deck.init 1 with loop := true, position := 1 } 5).1.map List.length) =
      some 3 ∧
    (get_deck_audio_local audioBufDemo
        { Deck.init 1 with loop := true, position := 1 } 5).2.position = 4 ∧
    (1 + 5) % audioBufDemo.length = 0 := by
  decide

/-- C1 witness: the concrete looping deck at position 1 on the 2-frame
buffer, asked for 2 frames, returns the second frame followed by the
first (the wrap-around concatenation) and ends at position 1, congruent
to (1 + 2) mod 2. -/
theorem c1_witness :
    (get_deck_audio_local audioBufDemo loopDeckDemo 2).1 =
      some [((3:ℚ),(4:ℚ)), ((1:ℚ),(2:ℚ))] ∧
    (get_deck_audio_local audioBufDemo loopDeckDemo 2).2.position = 1 ∧
    (get_deck_audio_local audioBufDemo loopDeckDemo 2).2.position %
        audioBufDemo.length = (loopDeckDemo.position + 2) % audioBufDemo.length := by
  have h := c1_loop_extraction audioBufDemo loopDeckDemo 2 rfl rfl rfl rfl
    (by decide) (by decide) (by decide) (by decide)
  refine ⟨?_, ?_, h.2.2.1⟩
  · rw [h.1]
    decide
  · rw [h.2.1]
    decide

/-- C2: during an active crossfade (positive total), the per-sample
gains applied to the outgoing and incoming decks sum to exactly 1 at
every sample of every generated block; and as soon as the accumulated
`samples_done` reaches or exceeds `samples_total`, the crossfade becomes
inactive and `active_deck_index` equals the crossfade's target index. -/
theorem c2_crossfade_invariant (m : Mixer) (frames : Nat)
    (hactive : m.cf_active = true) (htotal : 0 < m.cf_samples_total) :
    List.zipWith (fun a b => a + b)
        (m.crossfade_step frames).1.1 (m.crossfade_step frames).1.2 =
      List.replicate frames 1 ∧
    (m.cf_samples_total ≤ m.cf_samples_done + frames →
      (m.crossfade_step frames).2.cf_active = false ∧
      (m.crossfade_step frames).2.active_deck_index = m.cf_to) := by
  constructor
  · have key := zipWith_gain_sum
      (linspace ((m.cf_samples_done : ℚ) / (m.cf_samples_total : ℚ))
        (min 1 (((m.cf_samples_done + frames : Nat) : ℚ) / (m.cf_samples_total : ℚ)))
        frames)
    rw [linspace_length] at key
    exact key
  · intro hdone
    unfold Mixer.crossfade_step crossfade_gains
    simp only
    split
    · exact ⟨rfl, rfl⟩
    · rename_i hneg
      exact absurd hdone hneg

/-- C2 witness: the spec scenario (2.0 s crossfade at 44100 Hz, hence
88200 samples total, 4410 already done): one further block of 88200
frames has gains summing to 1 everywhere, finishes the crossfade and
lands the active deck on the target. -/
theorem c2_witness :
    List.zipWith (fun a b => a + b)
        (mixerMidFade.crossfade_step 88200).1.1 (mixerMidFade.crossfade_step 88200).1.2 =
      List.replicate 88200 1 ∧
    (mixerMidFade.crossfade_step 88200).2.cf_active = false ∧
    (mixerMidFade.crossfade_step 88200).2.active_deck_index = mixerMidFade.cf_to := by
  have h := c2_crossfade_invariant mixerMidFade 88200 (by decide) (by decide)
  exact ⟨h.1, (h.2 (by decide)).1, (h.2 (by decide)).2⟩

/-- C7: (i) after every call to `buffer_frames` the pre-roll ring
buffer holds at most `int(sample_rate * pre_roll_seconds)` frames — the
frame-count field stays in sync and chunks are only dropped from the
front (the surviving deque is a suffix of the old deque plus the new
chunk, or is untouched by an early return); (ii) while recording,
`buffer_frames` is a no-op; (iii) `start_recording` writes the entire
buffered pre-roll content to the fresh sink in order, then clears the
buffer, and any live frames written afterwards land strictly after the
pre-roll content. -/
theorem c7_pre_roll_recorder (r : Recorder) (chunk live : List Frame)
    (hcount : r.pre_roll_frames_count = totalFrames r.pre_roll_buffer)
    (hbound : totalFrames r.pre_roll_buffer ≤ r.max_frames) :
    (totalFrames (r.buffer_frames chunk).pre_roll_buffer ≤ r.max_frames ∧
      (r.buffer_frames chunk).pre_roll_frames_count =
        totalFrames (r.buffer_frames chunk).pre_roll_buffer ∧
      ((r.buffer_frames chunk).pre_roll_buffer = r.pre_roll_buffer ∨
        (r.buffer_frames chunk).pre_roll_buffer.IsSuffix (r.pre_roll_buffer ++ [chunk]))) ∧
    (r.is_recording = true → r.buffer_frames chunk = r) ∧
    (r.is_recording = false →
      (r.start_recording).2.sink = r.pre_roll_buffer.flatten ∧
      (r.start_recording).2.pre_roll_buffer = [] ∧
      (r.start_recording).2.pre_roll_frames_count = 0 ∧
      (r.start_recording).2.is_recording = true ∧
      ((r.start_recording).2.write_frames live).sink =
        r.pre_roll_buffer.flatten ++ live) := by
  have happ : totalFrames (r.pre_roll_buffer ++ [chunk]) =
      totalFrames r.pre_roll_buffer + chunk.length := by
    unfold totalFrames
    simp
  refine ⟨?_, ?_, ?_⟩
  · unfold Recorder.buffer_frames
    split_ifs with h1 h2
    · exact ⟨hbound, hcount, Or.inl rfl⟩
    · exact ⟨hbound, hcount, Or.inl rfl⟩
    · have key := dropOldest_spec (r.pre_roll_buffer ++ [chunk])
        (r.pre_roll_frames_count + chunk.length) r.max_frames (by omega)
      exact ⟨key.2.1, key.1, Or.inr key.2.2⟩
  · intro hrec
    unfold Recorder.buffer_frames
    rw [hrec]
    simp
  · intro hrec
    unfold Recorder.start_recording
    rw [if_neg (by rw [hrec]; exact Bool.false_ne_true)]
    unfold Recorder.write_pre_roll_buffer
    split_ifs with hemp
    · have hemp' : r.pre_roll_buffer = [] := hemp
      have hc0 : r.pre_roll_frames_count = 0 := by
        rw [hcount, hemp']
        rfl
      refine ⟨by simp [hemp'], hemp', hc0, rfl, ?_⟩
      unfold Recorder.write_frames
      simp [hemp']
    · refine ⟨by simp, rfl, rfl, rfl, ?_⟩
      unfold Recorder.write_frames
      simp

/-- C7 witness: the concrete recorder (cap 4 frames, 3 buffered) takes
a 2-frame chunk, drops its oldest chunk to get back under the cap
(leaving the newest 3 frames), and `start_recording` drains the
3 buffered frames into the sink in order before a live chunk. -/
theorem c7_witness :
    totalFrames (recorderDemo.buffer_frames
        [((4:ℚ),(4:ℚ)), ((5:ℚ),(5:ℚ))]).pre_roll_buffer ≤ recorderDemo.max_frames ∧
    (recorderDemo.buffer_frames [((4:ℚ),(4:ℚ)), ((5:ℚ),(5:ℚ))]).pre_roll_buffer =
      [[((3:ℚ),(3:ℚ))], [((4:ℚ),(4:ℚ)), ((5:ℚ),(5:ℚ))]] ∧
    (recorderDemo.start_recording).2.sink = recorderDemo.pre_roll_buffer.flatten ∧
    (recorderDemo.start_recording).2.pre_roll_buffer = [] ∧
    ((recorderDemo.start_recording).2.write_frames [((6:ℚ),(6:ℚ))]).sink =
      recorderDemo.pre_roll_buffer.flatten ++ [((6:ℚ),(6:ℚ))] := by
  have hmax : recorderDemo.max_frames = 4 := by
    norm_num [Recorder.max_frames, recorderDemo, pyInt, Rat.floor_def']
    decide
  have h := c7_pre_roll_recorder recorderDemo [((4:ℚ),(4:ℚ)), ((5:ℚ),(5:ℚ))]
    [((6:ℚ),(6:ℚ))] (by decide) (by rw [hmax]; decide)
  refine ⟨h.1.1, ?_, (h.2.2 rfl).1, (h.2.2 rfl).2.1, (h.2.2 rfl).2.2.2.2⟩
  simp only [Recorder.buffer_frames, hmax]
  decide

/-- C8: for every stream handler (with the FFmpeg decoder available)
and every requested frame count `n ≥ 1`, `get_audio_data(n)` returns
exactly `n` stereo frames: the first `min n buffered` frames of the
buffered chunks in order (splitting or concatenating them as needed),
with the shortfall zero-filled with silence. -/
theorem c8_get_audio_data (s : StreamHandler) (n : Nat)
    (hff : s.ffmpeg_available = true) (hn : 1 ≤ n) :
    (s.get_audio_data n).1 =
      some ((s.decoded_buffer.flatten ++ List.replicate n silentFrame).take n) ∧
    ((s.decoded_buffer.flatten ++ List.replicate n silentFrame).take n).length = n := by
  constructor
  · unfold StreamHandler.get_audio_data
    rw [hff]
    simp only [Bool.not_true, Bool.false_eq_true, if_false]
    split_ifs with hemp
    · rw [hemp]
      simp [List.take_replicate]
    · rw [collect_samples_flatten]
      rcases le_or_lt n s.decoded_buffer.flatten.length with hle | hlt
      · have h1 : (s.decoded_buffer.flatten.take n).length = n := by
          rw [List.length_take]
          omega
        rw [h1]
        simp only [Nat.sub_self, List.replicate_zero, List.append_nil,
          List.take_take, Nat.min_self]
        rw [List.take_append_of_le_length hle]
      · have h1 : s.decoded_buffer.flatten.take n = s.decoded_buffer.flatten :=
          List.take_of_length_le (by omega)
        have h2 : (s.decoded_buffer.flatten ++
            List.replicate (n - s.decoded_buffer.flatten.length) silentFrame).take n =
            s.decoded_buffer.flatten ++
              List.replicate (n - s.decoded_buffer.flatten.length) silentFrame :=
          List.take_of_length_le
            (by rw [List.length_append, List.length_replicate]; omega)
        rw [h1, h2, List.take_append_eq_append_take, h1, List.take_replicate,
          min_eq_left (by omega)]
  · rw [List.length_take]
    simp only [List.length_append, List.length_replicate]
    omega

/-- C8 witness: a handler with 3 buffered frames asked for 4 returns
the 3 buffered frames in order followed by one silent frame — exactly 4
frames. -/
theorem c8_witness :
    (streamDemo.get_audio_data 4).1 =
      some ((streamDemo.decoded_buffer.flatten ++ List.replicate 4 silentFrame).take 4) ∧
    ((streamDemo.decoded_buffer.flatten ++ List.replicate 4 silentFrame).take 4).length = 4 ∧
    (streamDemo.get_audio_data 4).1 =
      some [((1:ℚ),(1:ℚ)), ((2:ℚ),(2:ℚ)), ((3:ℚ),(3:ℚ)), ((0:ℚ),(0:ℚ))] := by
  have h := c8_get_audio_data streamDemo 4 (by decide) (by decide)
  exact ⟨h.1, h.2, by decide⟩

/-- C9 witness: a concrete local deck with a 3-frame decoded buffer and
a 44100 Hz rate: seeking to sample 1000 clamps the position to 3, and
relative seeking stays within the buffer. -/
theorem c9_witness :
    (({ Deck.init 4 with
          audio_data := some [((1:ℚ),(1:ℚ)), ((2:ℚ),(2:ℚ)), ((3:ℚ),(3:ℚ))],
          sample_rate := some 44100 } : Deck).seek_samples 1000).position =
        (max 0 (min (1000 : Int) ((3 : Nat) : Int))).toNat ∧
    (({ Deck.init 4 with
          audio_data := some [((1:ℚ),(1:ℚ)), ((2:ℚ),(2:ℚ)), ((3:ℚ),(3:ℚ))],
          sample_rate := some 44100 } : Deck).seek_relative (1/2)).position ≤ 3 := by
  have h := c9_seek_clamping
    { Deck.init 4 with
        audio_data := some [((1:ℚ),(1:ℚ)), ((2:ℚ),(2:ℚ)), ((3:ℚ),(3:ℚ))],
        sample_rate := some 44100 } 1000 0 (1/2)
  exact ⟨(h.2.1 [((1:ℚ),(1:ℚ)), ((2:ℚ),(2:ℚ)), ((3:ℚ),(3:ℚ))] (by decide) rfl).1,
    (h.2.2.2 [((1:ℚ),(1:ℚ)), ((2:ℚ),(2:ℚ)), ((3:ℚ),(3:ℚ))] 44100
      (by decide) rfl rfl).2⟩

end Multideck
